import Mathlib

/-!
Shallow embedding of the client-side workflow controller of
`src/app.js` (Low Cost Groceries frontend).

Pure data is translated directly; the mutable module-level `state`
object becomes the explicit record `App.AppState`, and every event
handler or async continuation becomes a function from state (plus the
outcome of its network round-trip, passed as an explicit argument) to
state.  Browser timers are modelled by a list of scheduled timer
handles (`activeTimers`) together with the stored handle
(`pollInterval`); `setInterval` appends a fresh handle, and
`clearInterval` on the stored handle removes it from the list.
-/

namespace App

/-- One suggestion name, as in the JSON shapes `{name: ...}` used by
`/api/clarify` responses. -/
structure SuggName where
  name : String
deriving DecidableEq

/-- The `/api/clarify` response body: an optional `suggested` field plus
a list of alternatives (`src/app.js` treats a missing `suggested` as
nothing to render). -/
structure SuggestionResult where
  suggested : Option SuggName
  alternatives : List SuggName
deriving DecidableEq

/-- Status values written into a pending-suggestion entry by
`submitItemForAI` (src/app.js:280, 298, 306). -/
inductive PendingStatus where
  | loading
  | complete
  | error
deriving DecidableEq

/-- A pending-suggestion entry, as pushed by `submitItemForAI`
(src/app.js:277-282). -/
structure Pending where
  id : Nat
  originalText : String
  status : PendingStatus
  suggestions : Option SuggestionResult
deriving DecidableEq

/-- A cart entry: `state.cart.push({ name })` (src/app.js:205). -/
structure CartItem where
  name : String
deriving DecidableEq

/-- A product row of the results payload (src/app.js:622-671); the JS
number `price` is embedded as an exact rational, which is faithful for
the comparisons and equality tests the code performs. -/
structure Product where
  name : String
  merchant : String
  price : ℚ
  location : Option String
deriving DecidableEq

/-- The `GET /api/results/jobId` response body (src/app.js:521-541);
`results` is the JSON object embedded as an association list with the
object key order. -/
structure JobData where
  status : String
  queue_position : Option Nat
  results : List (String × List Product)
  zip_code : Option String
  total_time : Option ℚ
deriving DecidableEq

/-- `CONFIG.MAX_ITEMS` (src/app.js:16). -/
def MAX_ITEMS : Nat := 10

/-- `CONFIG.POLL_INTERVAL` in milliseconds (src/app.js:15). -/
def POLL_INTERVAL : Nat := 2000

/-- The rendered card for one cart item in the results view
(src/app.js:592-688): a no-products placeholder, a single best-price
row, or a best-price group showing the first product expanded and the
remaining tied products collapsed behind a toggle with a count. -/
inductive ResultCard where
  | noResults (item : String)
  | single (item : String) (best : Product)
  | group (item : String) (first : Product) (collapsed : List Product) (toggleCount : Nat)
deriving DecidableEq

/-- The outcome of one `fetch` round-trip of `fetchSuggestions`
(src/app.js:96-118): a parsed body, a non-2xx response, or a network
rejection. -/
inductive FetchOutcome where
  | ok (data : SuggestionResult)
  | httpFail
  | netFail
deriving DecidableEq

/-- The outcome of one polling round-trip of `pollResults`
(src/app.js:514-549): a network rejection, or a response with its
`ok` flag and parsed body. -/
inductive PollOutcome where
  | netFail
  | response (ok : Bool) (data : JobData)
deriving DecidableEq

/-- The outcome of the `POST /api/cart` round-trip of `submitCart`
(src/app.js:456-479). -/
inductive SubmitOutcome where
  | fail
  | ok (jobId : String)
deriving DecidableEq

/-- The module-level mutable state of `src/app.js`: the `state` object
(lines 24-31), the module variable `pollCount` (line 491), the browser
timer environment, and the user-visible outputs the claims mention
(toasts, progress bar width, status line, rendered results). -/
structure AppState where
  cart : List CartItem
  currentStep : Nat
  jobId : Option String
  pollInterval : Option Nat
  zipCode : Option String
  pendingSuggestions : List Pending
  pollCount : Nat
  progress : Nat
  activeTimers : List Nat
  nextTimer : Nat
  toasts : List String
  loadingStatus : String
  inflight : List (Nat × String)
  resultsView : List ResultCard
  itemsFoundCnt : Nat
  totalItemsCnt : Nat
  totalProductsCnt : Nat
deriving DecidableEq

/-- The initial state on page load (src/app.js:24-31, 491). -/
def initState : AppState where
  cart := []
  currentStep := 1
  jobId := none
  pollInterval := none
  zipCode := none
  pendingSuggestions := []
  pollCount := 0
  progress := 0
  activeTimers := []
  nextTimer := 0
  toasts := []
  loadingStatus := ""
  inflight := []
  resultsView := []
  itemsFoundCnt := 0
  totalItemsCnt := 0
  totalProductsCnt := 0

/-- `showToast` (src/app.js:51-61): records the user-visible
notification. -/
def showToast (message : String) (s : AppState) : AppState :=
  { s with toasts := s.toasts ++ [message] }

/-- `goToStep` (src/app.js:66-78): sets the single active phase. -/
def goToStep (stepNumber : Nat) (s : AppState) : AppState :=
  { s with currentStep := stepNumber }

/-- The timers remaining after `clearInterval(state.pollInterval)`:
removes the stored handle from the scheduled set; clearing a null
handle is a no-op. -/
def clearTimers (s : AppState) : List Nat :=
  match s.pollInterval with
  | some t => s.activeTimers.erase t
  | none => s.activeTimers

/-- `clearInterval(state.pollInterval)` as a state transformer. -/
def clearIntervalS (s : AppState) : AppState :=
  { s with activeTimers := clearTimers s }

/-- `addToCart` (src/app.js:191-216): rejects an exact-string duplicate
name or a full cart with a toast and no state change, else appends. -/
def addToCart (name : String) (s : AppState) : AppState :=
  if s.cart.any (fun item => item.name == name) then
    showToast "Item already in cart!" s
  else if MAX_ITEMS ≤ s.cart.length then
    showToast "Maximum 10 items allowed" s
  else
    showToast "Added to cart!" { s with cart := s.cart ++ [{ name := name }] }

/-- `removeFromCart` (src/app.js:221-225): `splice(index, 1)`, a no-op
when the index is out of bounds. -/
def removeFromCart (index : Nat) (s : AppState) : AppState :=
  showToast "Removed from cart" { s with cart := s.cart.eraseIdx index }

/-- The confirmed branch of the clear-cart click handler
(src/app.js:413-418). -/
def clearCart (s : AppState) : AppState :=
  { s with cart := [] }

/-- `removePendingItem` (src/app.js:180-186): `findIndex` on the id
followed by `splice(index, 1)` — removes the first entry carrying the
id and is a no-op when no entry matches. -/
def removePendingItem (pendingId : Nat) : List Pending → List Pending
  | [] => []
  | p :: ps =>
    if p.id == pendingId then ps else p :: removePendingItem pendingId ps

/-- The mutation pattern of the completion handler of `submitItemForAI`
(src/app.js:296-301): `find` the first entry with the id and mutate it
in place; when no entry matches, nothing happens. -/
def setFirst (pendingId : Nat) (f : Pending → Pending) : List Pending → List Pending
  | [] => []
  | p :: ps =>
    if p.id == pendingId then f p :: ps else p :: setFirst pendingId f ps

/-- `fetchSuggestions` (src/app.js:96-118): returns the parsed body on
a 2xx response and `null` on a non-2xx response or a network rejection,
emitting a toast on either failure.  It catches every failure itself
and therefore never raises into its caller. -/
def fetchSuggestions : FetchOutcome → Option SuggestionResult × List String
  | .ok data => (some data, [])
  | .httpFail => (none, ["Failed to get AI suggestions. Try again!"])
  | .netFail => (none, ["Failed to get AI suggestions. Try again!"])

/-- The synchronous prefix of `submitItemForAI` (src/app.js:270-290):
guard on texts shorter than 2 characters, create the pending entry with
id `Date.now()` (passed here as `now`), and issue the clarify request
(tracked in `inflight`). -/
def submitItemForAI (now : Nat) (originalText : String) (s : AppState) : AppState :=
  if originalText.length < 2 then s
  else
    { s with
      pendingSuggestions := s.pendingSuggestions ++
        [{ id := now, originalText := originalText, status := .loading, suggestions := none }]
      inflight := s.inflight ++ [(now, originalText)] }

/-- The continuation of `submitItemForAI` after its fetch resolves
(src/app.js:292-301): the result of `fetchSuggestions` (possibly null)
is written into the first entry with the captured id, whose status
becomes `complete`; absent entry means silent no-op.  The catch branch
(src/app.js:302-309) that would set status `error` is unreachable
because `fetchSuggestions` never raises. -/
def submitItemResolve (pendingId : Nat) (o : FetchOutcome) (s : AppState) : AppState :=
  let r := fetchSuggestions o
  { s with
    toasts := s.toasts ++ r.2
    inflight := s.inflight.eraseP (fun req => req.1 == pendingId)
    pendingSuggestions :=
      setFirst pendingId
        (fun it => { it with status := .complete, suggestions := r.1 })
        s.pendingSuggestions }

/-- A click on a suggestion card (src/app.js:166-172): add the chosen
name to the cart, then remove the originating pending entry. -/
def selectSuggestion (pendingId : Nat) (name : String) (s : AppState) : AppState :=
  let s1 := addToCart name s
  { s1 with pendingSuggestions := removePendingItem pendingId s1.pendingSuggestions }

/-- JS `String.prototype.trim`: strip leading and trailing whitespace. -/
def jsTrim (s : String) : String :=
  ⟨((s.data.dropWhile Char.isWhitespace).reverse.dropWhile Char.isWhitespace).reverse⟩

/-- The item-input submission handlers (src/app.js:392-407): trim the
raw input and call `submitItemForAI` only when the trimmed value has at
least 2 characters. -/
def itemSubmitHandler (now : Nat) (rawInput : String) (s : AppState) : AppState :=
  let value := jsTrim rawInput
  if 2 ≤ value.length then submitItemForAI now value s else s

/-- The keys of the results object, in key order
(`Object.keys(results)`, src/app.js:569). -/
def objKeys (rs : List (String × List Product)) : List String :=
  rs.map Prod.fst

/-- `results[name] || []` (src/app.js:593): exact-name lookup in the
results object, defaulting to the empty list when the key is absent. -/
def lookupD (rs : List (String × List Product)) (k : String) : List Product :=
  match rs.find? (fun kv => kv.1 == k) with
  | some kv => kv.2
  | none => []

/-- `Object.keys(results).filter(item => results[item].length > 0).length`
(src/app.js:569, 577): the displayed items-found count. -/
def itemsFound (rs : List (String × List Product)) : Nat :=
  ((objKeys rs).filter (fun k => !(lookupD rs k).isEmpty)).length

/-- Insertion step of the stable ascending-by-price sort performed by
`[...products].sort((a, b) => a.price - b.price)` (src/app.js:609): the
element is placed before the first strictly-not-smaller price, so
earlier elements stay before later elements of equal price. -/
def insertByPrice (x : Product) : List Product → List Product
  | [] => [x]
  | y :: ys => if x.price ≤ y.price then x :: y :: ys else y :: insertByPrice x ys

/-- The stable ascending-by-price sort of src/app.js:609 (JS
`Array.prototype.sort` is stable, and a stable sorted permutation is
unique, so insertion sort embeds it faithfully). -/
def sortByPrice (l : List Product) : List Product :=
  l.foldr insertByPrice []

/-- `sortedProducts[0].price` (src/app.js:612): the minimum price of a
nonempty product list (0 in the unreachable empty case). -/
def bestPriceOf (l : List Product) : ℚ :=
  match sortByPrice l with
  | [] => 0
  | b :: _ => b.price

/-- `sortedProducts.filter(p => p.price === bestPrice)`
(src/app.js:615): the best-price group. -/
def bestGroupOf (l : List Product) : List Product :=
  (sortByPrice l).filter (fun p => p.price == bestPriceOf l)

/-- The card rendered for one cart item (src/app.js:595-687): a
placeholder when the product list is empty; otherwise sort by price,
group the minimum-price products, and show either a single best row or
the first of the group expanded with the rest collapsed behind a
toggle whose count is the group size minus one.  Products above the
minimum price appear in neither part of the card. -/
def renderItem (itemName : String) (products : List Product) : ResultCard :=
  match products with
  | [] => .noResults itemName
  | _ :: _ =>
    match bestGroupOf products with
    | [] => .noResults itemName
    | g :: gs =>
      if gs.isEmpty then .single itemName g
      else .group itemName g gs gs.length

/-- The per-item rendering loop of `displayResults`
(src/app.js:592-688): one card per cart item, in cart order, each fed
by exact-name lookup with empty-list default. -/
def renderResults (cart : List CartItem) (rs : List (String × List Product)) :
    List ResultCard :=
  cart.map (fun c => renderItem c.name (lookupD rs c.name))

/-- `displayResults` (src/app.js:567-689): recomputes the summary
statistics and the per-item cards from the payload. -/
def displayResults (d : JobData) (s : AppState) : AppState :=
  { s with
    itemsFoundCnt := itemsFound d.results
    totalItemsCnt := s.cart.length
    totalProductsCnt := (d.results.map (fun kv => kv.2.length)).sum
    resultsView := renderResults s.cart d.results }

/-- `startPolling` (src/app.js:496-500): resets the poll counter and
schedules a fresh repeating timer, storing its handle.  It does NOT
clear any previously scheduled timer, so an already-active timer stays
scheduled alongside the new one.  (The immediate first `pollResults()`
call is the first element of the outcome trace fed to `pollResults`.) -/
def startPolling (s : AppState) : AppState :=
  { s with
    pollCount := 0
    pollInterval := some s.nextTimer
    activeTimers := s.activeTimers ++ [s.nextTimer]
    nextTimer := s.nextTimer + 1 }

/-- The queued-status line (src/app.js:541). -/
def queuedText (qp : Option Nat) : String :=
  "Queued (position: " ++ (match qp with | some n => toString n | none => "?") ++ ")"

/-- One execution of `pollResults` (src/app.js:505-550) with the
outcome of its fetch passed explicitly: increment the counter, set the
synthetic progress to `min(count*10, 90)`, then dispatch on the
response.  `complete` clears the timer, forces progress 100, renders
results and moves to phase 4; `failed`, a non-2xx response and a
network rejection clear the timer, toast and move back to phase 2;
`processing` and `queued` only update the status line. -/
def pollResults (s : AppState) (o : PollOutcome) : AppState :=
  let c := s.pollCount + 1
  let s1 := { s with pollCount := c, progress := min (c * 10) 90 }
  match o with
  | .netFail =>
    goToStep 2 (showToast "Error fetching results. Please try again." (clearIntervalS s1))
  | .response ok d =>
    if ok = false then
      goToStep 2 (showToast "Error fetching results. Please try again." (clearIntervalS s1))
    else if d.status = "complete" then
      goToStep 4 (displayResults d { clearIntervalS s1 with progress := 100 })
    else if d.status = "processing" then
      { s1 with loadingStatus := "Processing your items..." }
    else if d.status = "failed" then
      goToStep 2 (showToast "Search failed. Please try again." (clearIntervalS s1))
    else if d.status = "queued" then
      { s1 with loadingStatus := queuedText d.queue_position }
    else s1

/-- The successive values shown by the progress indicator along one
sequence of poll-tick outcomes: each tick records the indicator value
it leaves behind, and ticking stops as soon as no timer remains
scheduled (a cleared timer fires no further callbacks). -/
def pollTraceFrom (s : AppState) : List PollOutcome → List Nat
  | [] => []
  | o :: os =>
    let s' := pollResults s o
    s'.progress :: (if s'.activeTimers.isEmpty then [] else pollTraceFrom s' os)

/-- Whether a poll outcome is the confirmed-complete server response. -/
def isCompleteOutcome : PollOutcome → Bool
  | .response true d => d.status == "complete"
  | _ => false

/-- Whether a poll outcome ends the polling session (clears the
timer): completion, a failed status, a non-2xx response, or a network
rejection. -/
def isTerminalOutcome : PollOutcome → Bool
  | .netFail => true
  | .response false _ => true
  | .response true d => d.status == "complete" || d.status == "failed"

/-- `submitCart` (src/app.js:451-485) with the round-trip outcome
passed explicitly: store the entered zip, move optimistically to phase
3; on failure toast and fall back to phase 2; on success store the job
id and start polling. -/
def submitCart (zipInputVal : String) (_prioritizeNearby : Bool)
    (o : SubmitOutcome) (s : AppState) : AppState :=
  let s1 := goToStep 3 { s with zipCode := some zipInputVal }
  match o with
  | .fail => goToStep 2 (showToast "Failed to submit cart. Please try again." s1)
  | .ok jobId =>
    startPolling { s1 with jobId := some jobId,
                           loadingStatus := "Job queued, waiting for worker..." }

/-- The new-search click handler (src/app.js:708-724): clears cart,
job id and zip, and returns to phase 1.  It does NOT touch the timer
environment or the pending suggestions. -/
def newSearchReset (s : AppState) : AppState :=
  goToStep 1 { s with cart := [], jobId := none, zipCode := none }

/-- One step of the event-driven UI: every handler of `src/app.js`
guarded by the phase in which its control is interactable, every async
continuation guarded by its request being outstanding, and every timer
callback guarded by its timer being scheduled. -/
inductive StepR : AppState → AppState → Prop where
  | goContinue (s : AppState) :
      s.currentStep = 1 → s.cart ≠ [] → StepR s (goToStep 2 s)
  | goBack (s : AppState) :
      s.currentStep = 2 → StepR s (goToStep 1 s)
  | submit (s : AppState) (zip : String) (pn : Bool) (o : SubmitOutcome) :
      s.currentStep = 2 → StepR s (submitCart zip pn o s)
  | tick (s : AppState) (t : Nat) (o : PollOutcome) :
      t ∈ s.activeTimers → StepR s (pollResults s o)
  | reset (s : AppState) :
      s.currentStep = 4 → StepR s (newSearchReset s)
  | addItem (s : AppState) (name : String) :
      s.currentStep = 1 → StepR s (addToCart name s)
  | removeItem (s : AppState) (i : Nat) :
      s.currentStep = 1 → StepR s (removeFromCart i s)
  | clearEv (s : AppState) :
      s.currentStep = 1 → StepR s (clearCart s)
  | submitText (s : AppState) (now : Nat) (text : String) :
      s.currentStep = 1 → StepR s (itemSubmitHandler now text s)
  | resolve (s : AppState) (pid : Nat) (o : FetchOutcome) :
      (∃ t, (pid, t) ∈ s.inflight) → StepR s (submitItemResolve pid o s)
  | select (s : AppState) (pid : Nat) (name : String) :
      s.currentStep = 1 → StepR s (selectSuggestion pid name s)

/-- The states reachable from page load through the event handlers. -/
inductive Reach : AppState → Prop where
  | init : Reach initState
  | step {s s' : AppState} : Reach s → StepR s s' → Reach s'

/-! ## Cart Manager lemmas -/

lemma addToCart_rejected {s : AppState} {nm : String}
    (h : s.cart.any (fun item => item.name == nm) = true ∨ MAX_ITEMS ≤ s.cart.length) :
    (addToCart nm s).cart = s.cart := by
  unfold addToCart
  rcases h with h | h
  · simp [h, showToast]
  · by_cases hd : s.cart.any (fun item => item.name == nm)
    · simp [hd, showToast]
    · simp [hd, h, showToast]

lemma addToCart_inv {s : AppState} (nm : String)
    (h1 : (s.cart.map CartItem.name).Nodup) (h2 : s.cart.length ≤ MAX_ITEMS) :
    ((addToCart nm s).cart.map CartItem.name).Nodup ∧
      (addToCart nm s).cart.length ≤ MAX_ITEMS := by
  unfold addToCart
  by_cases hd : s.cart.any (fun item => item.name == nm)
  · simpa [hd, showToast] using ⟨h1, h2⟩
  · by_cases hf : MAX_ITEMS ≤ s.cart.length
    · simpa [hd, hf, showToast] using ⟨h1, h2⟩
    · have hname : nm ∉ s.cart.map CartItem.name := by
        intro hmem
        obtain ⟨item, hitem, heq⟩ := List.mem_map.mp hmem
        exact hd (List.any_eq_true.mpr ⟨item, hitem, by simp [heq]⟩)
      refine ⟨?_, ?_⟩
      · simp [hd, hf, showToast, List.nodup_append, h1, hname]
      · simp only [hd, hf, showToast, if_false, if_neg, List.length_append]
        simp [showToast]
        omega

lemma addAll_inv (names : List String) :
    ∀ s : AppState, (s.cart.map CartItem.name).Nodup → s.cart.length ≤ MAX_ITEMS →
      (((names.foldl (fun s n => addToCart n s) s).cart.map CartItem.name).Nodup ∧
        (names.foldl (fun s n => addToCart n s) s).cart.length ≤ MAX_ITEMS) := by
  induction names with
  | nil => intro s h1 h2; exact ⟨h1, h2⟩
  | cons n ns ih =>
    intro s h1 h2
    have h := addToCart_inv (s := s) n h1 h2
    exact ih _ h.1 h.2

/-- C4: adding a duplicate name (case-sensitive exact match) or adding
into a full cart of `MAX_ITEMS` (10) items leaves the cart unchanged
(and, being a total function, raises nothing); consequently any
sequence of adds from a deduplicated cart of at most 10 items — in
particular from the initial empty cart — keeps the cart free of
duplicate names and of size at most 10. -/
theorem C4_cart_dedupe_capacity :
    (∀ (s : AppState) (nm : String),
        s.cart.any (fun item => item.name == nm) = true ∨ MAX_ITEMS ≤ s.cart.length →
        (addToCart nm s).cart = s.cart)
  ∧ (∀ (names : List String) (s : AppState),
        (s.cart.map CartItem.name).Nodup → s.cart.length ≤ MAX_ITEMS →
        (((names.foldl (fun s n => addToCart n s) s).cart.map CartItem.name).Nodup ∧
          (names.foldl (fun s n => addToCart n s) s).cart.length ≤ MAX_ITEMS)) :=
  ⟨fun _ _ h => addToCart_rejected h, fun names s h1 h2 => addAll_inv names s h1 h2⟩

/-- Witness for C4: the second add of "milk" is rejected, and an
11-element add sequence from the initial state ends deduplicated within
capacity. -/
theorem C4_cart_dedupe_capacity_w :
    ((addToCart "milk" { initState with cart := [{ name := "milk" }] }).cart =
      [{ name := "milk" }])
  ∧ ((((["milk", "milk", "eggs"].foldl (fun s n => addToCart n s)
        initState).cart.map CartItem.name).Nodup)) :=
  ⟨C4_cart_dedupe_capacity.1 _ "milk" (Or.inl (by decide)),
   (C4_cart_dedupe_capacity.2 ["milk", "milk", "eggs"] initState (by decide) (by decide)).1⟩

/-! ## Short-input guard -/

/-- C10: submitting item text whose trimmed length is below 2 is a
no-op — the handler returns the state unchanged (no pending entry, no
outstanding clarify request, nothing else touched), and the internal
guard of `submitItemForAI` does the same for a short text. -/
theorem C10_short_input_noop :
    (∀ (now : Nat) (raw : String) (s : AppState),
        (jsTrim raw).length < 2 → itemSubmitHandler now raw s = s)
  ∧ (∀ (now : Nat) (text : String) (s : AppState),
        text.length < 2 → submitItemForAI now text s = s) := by
  constructor
  · intro now raw s h
    unfold itemSubmitHandler
    rw [if_neg (by omega)]
  · intro now text s h
    unfold submitItemForAI
    rw [if_pos h]

/-- Witness for C10 at the concrete input " a " (trims to length 1). -/
theorem C10_short_input_noop_w :
    (jsTrim " a ").length < 2 ∧ itemSubmitHandler 7 " a " initState = initState :=
  ⟨by decide, C10_short_input_noop.1 7 " a " initState (by decide)⟩

/-! ## Pending-suggestion frame lemmas -/

lemma setFirst_noop {pid : Nat} {f : Pending → Pending} :
    ∀ {l : List Pending}, (∀ p ∈ l, p.id ≠ pid) → setFirst pid f l = l := by
  intro l
  induction l with
  | nil => intro _; rfl
  | cons p ps ih =>
    intro h
    unfold setFirst
    rw [if_neg (by simpa using h p (by simp)), ih (fun q hq => h q (by simp [hq]))]

lemma setFirst_getElem? {pid : Nat} {f : Pending → Pending} :
    ∀ (l : List Pending) (i : Nat) (p : Pending),
      l[i]? = some p → p.id ≠ pid → (setFirst pid f l)[i]? = some p := by
  intro l
  induction l with
  | nil => intro i p h _; simp at h
  | cons q qs ih =>
    intro i p h hne
    unfold setFirst
    split_ifs with hq
    · match i with
      | 0 => simp at h; exact absurd (h ▸ (by simpa using hq)) hne
      | Nat.succ j => simpa using (by simpa using h : qs[j]? = some p)
    · match i with
      | 0 => simpa using h
      | Nat.succ j => simpa using ih j p (by simpa using h) hne

lemma removePending_mem {pid : Nat} :
    ∀ {l : List Pending} {B : Pending}, B ∈ l → B.id ≠ pid →
      B ∈ removePendingItem pid l := by
  intro l
  induction l with
  | nil => intro B h _; cases h
  | cons p ps ih =>
    intro B h hne
    unfold removePendingItem
    rcases List.mem_cons.mp h with rfl | h
    · rw [if_neg (by simpa using hne)]; exact List.mem_cons_self ..
    · split_ifs
      · exact h
      · exact List.mem_cons_of_mem _ (ih h hne)

lemma removePending_filter (pid : Nat) :
    ∀ l : List Pending,
      (removePendingItem pid l).filter (fun p => !(p.id == pid)) =
        l.filter (fun p => !(p.id == pid)) := by
  intro l
  induction l with
  | nil => rfl
  | cons p ps ih =>
    unfold removePendingItem
    split_ifs with hp
    · simp [List.filter_cons, hp]
    · simp only [List.filter_cons, ih]

lemma addToCart_pending (nm : String) (s : AppState) :
    (addToCart nm s).pendingSuggestions = s.pendingSuggestions := by
  unfold addToCart showToast
  split_ifs <;> rfl

/-- C8: pending entries are mutually independent.  A completion handler
resolving under some id is a silent no-op when no entry carries that id,
and leaves every entry with a different id untouched at its position;
selecting a suggestion for one entry keeps every entry with a different
id in the collection, and removal preserves all other entries in
order. -/
theorem C8_pending_independence :
    (∀ (s : AppState) (pid : Nat) (o : FetchOutcome),
        (∀ p ∈ s.pendingSuggestions, p.id ≠ pid) →
        (submitItemResolve pid o s).pendingSuggestions = s.pendingSuggestions)
  ∧ (∀ (s : AppState) (pid : Nat) (o : FetchOutcome) (i : Nat) (p : Pending),
        s.pendingSuggestions[i]? = some p → p.id ≠ pid →
        (submitItemResolve pid o s).pendingSuggestions[i]? = some p)
  ∧ (∀ (s : AppState) (pid : Nat) (nm : String) (B : Pending),
        B ∈ s.pendingSuggestions → B.id ≠ pid →
        B ∈ (selectSuggestion pid nm s).pendingSuggestions)
  ∧ (∀ (l : List Pending) (pid : Nat),
        (removePendingItem pid l).filter (fun p => !(p.id == pid)) =
          l.filter (fun p => !(p.id == pid))) := by
  refine ⟨?_, ?_, ?_, ?_⟩
  · intro s pid o h
    simp [submitItemResolve, setFirst_noop h]
  · intro s pid o i p h hne
    simpa [submitItemResolve] using setFirst_getElem? s.pendingSuggestions i p h hne
  · intro s pid nm B hB hne
    have : B ∈ (addToCart nm s).pendingSuggestions := by
      rw [addToCart_pending]; exact hB
    simpa [selectSuggestion] using removePending_mem this hne
  · exact fun l pid => removePending_filter pid l

/-- Witness for C8: a resolution under id 1 leaves a collection whose
only entry has id 2 unchanged. -/
theorem C8_pending_independence_w :
    (submitItemResolve 1 .netFail
        { initState with pendingSuggestions :=
            [{ id := 2, originalText := "milk", status := .loading,
               suggestions := none }] }).pendingSuggestions =
      [{ id := 2, originalText := "milk", status := .loading, suggestions := none }] :=
  C8_pending_independence.1 _ 1 .netFail (by decide)

/-! ## Suggestion fetch failure (C2) -/

/-- C2 (divergence witness): a network failure of the clarify lookup
does NOT move the entry from Loading to Error.  `fetchSuggestions`
(src/app.js:96-118) catches the failure and returns null, so the
completion path of `submitItemForAI` (src/app.js:296-301) marks the
entry `complete` with null suggestions; the catch branch that would set
`error` never runs.  (Moreover the Retry button rendered for an error
entry invokes `retryPending`, which is defined nowhere in the source,
so the claimed Error → Loading retry transition does not exist.) -/
theorem C2_fetch_failure_divergence :
    (submitItemResolve 1 .netFail (submitItemForAI 1 "milk" initState)).pendingSuggestions =
      [{ id := 1, originalText := "milk", status := .complete, suggestions := none }]
  ∧ ((submitItemResolve 1 .netFail
        (submitItemForAI 1 "milk" initState)).pendingSuggestions.map Pending.status ≠
      [PendingStatus.error]) := by
  constructor
  · decide
  · decide

/-! ## Submission / polling failure handling (C3) -/

/-- C3: every submission or polling failure — an HTTP failure of the
cart submission, a `failed` job status, a network rejection of a poll
tick, and a non-2xx poll response — emits a user notification and
reverts the phase to Location (2), leaving the cart untouched and the
zip entered at submission still stored. -/
theorem C3_failures_revert_to_location :
    (∀ (s : AppState) (zip : String) (pn : Bool),
        (submitCart zip pn .fail s).currentStep = 2 ∧
        (submitCart zip pn .fail s).cart = s.cart ∧
        (submitCart zip pn .fail s).zipCode = some zip ∧
        (submitCart zip pn .fail s).toasts =
          s.toasts ++ ["Failed to submit cart. Please try again."])
  ∧ (∀ (s : AppState) (qp : Option Nat) (rs : List (String × List Product))
        (zc : Option String) (tt : Option ℚ),
        (pollResults s (.response true ⟨"failed", qp, rs, zc, tt⟩)).currentStep = 2 ∧
        (pollResults s (.response true ⟨"failed", qp, rs, zc, tt⟩)).cart = s.cart ∧
        (pollResults s (.response true ⟨"failed", qp, rs, zc, tt⟩)).zipCode = s.zipCode ∧
        (pollResults s (.response true ⟨"failed", qp, rs, zc, tt⟩)).toasts =
          s.toasts ++ ["Search failed. Please try again."])
  ∧ (∀ s : AppState,
        (pollResults s .netFail).currentStep = 2 ∧
        (pollResults s .netFail).cart = s.cart ∧
        (pollResults s .netFail).zipCode = s.zipCode ∧
        (pollResults s .netFail).toasts =
          s.toasts ++ ["Error fetching results. Please try again."])
  ∧ (∀ (s : AppState) (d : JobData),
        (pollResults s (.response false d)).currentStep = 2 ∧
        (pollResults s (.response false d)).cart = s.cart ∧
        (pollResults s (.response false d)).zipCode = s.zipCode ∧
        (pollResults s (.response false d)).toasts =
          s.toasts ++ ["Error fetching results. Please try again."]) :=
  ⟨fun _ _ _ => ⟨rfl, rfl, rfl, rfl⟩,
   fun _ _ _ _ _ => ⟨rfl, rfl, rfl, rfl⟩,
   fun _ => ⟨rfl, rfl, rfl, rfl⟩,
   fun _ _ => ⟨rfl, rfl, rfl, rfl⟩⟩

/-! ## Pending ids across submissions (C9) -/

/-- A sequence of item submissions: the k-th submission reads the
millisecond clock (`Date.now()`, src/app.js:276) through `clock`. -/
def runSubmissions (clock : Nat → Nat) : Nat → List String → AppState → AppState
  | _, [], s => s
  | k, t :: ts, s => runSubmissions clock (k + 1) ts (submitItemForAI (clock k) t s)

lemma runSubmissions_ids (clock : Nat → Nat) :
    ∀ (ts : List String) (k : Nat) (s : AppState), (∀ t ∈ ts, 2 ≤ t.length) →
      (runSubmissions clock k ts s).pendingSuggestions.map Pending.id =
        s.pendingSuggestions.map Pending.id ++ (List.range' k ts.length).map clock := by
  intro ts
  induction ts with
  | nil => intro k s _; simp [runSubmissions]
  | cons t ts ih =>
    intro k s h
    have h2 : 2 ≤ t.length := h t (by simp)
    rw [runSubmissions, ih (k + 1) _ (fun x hx => h x (by simp [hx]))]
    unfold submitItemForAI
    rw [if_neg (by omega)]
    simp [List.range'_succ k ts.length 1]

/-- C9 (counterexample): ids are `Date.now()` values, so two distinct
submissions ("milk" then "eggs") within the same millisecond receive
the SAME id — the ids of distinct submissions are neither distinct nor
strictly increasing. -/
theorem C9_counterexample :
    ((submitItemForAI 100 "eggs" (submitItemForAI 100 "milk" initState)).pendingSuggestions.map
        Pending.id) = [100, 100]
  ∧ ((submitItemForAI 100 "eggs" (submitItemForAI 100 "milk" initState)).pendingSuggestions.map
        Pending.originalText) = ["milk", "eggs"]
  ∧ ¬ ((submitItemForAI 100 "eggs" (submitItemForAI 100 "milk" initState)).pendingSuggestions.map
        Pending.id).Nodup := by
  refine ⟨by decide, by decide, by decide⟩

/-- C9 (amended): each pending id is the clock value read at its
submission; provided the clock is strictly increasing across
submissions (no two submissions within one millisecond), the ids are
pairwise distinct and strictly increasing in submission order, so each
submitted text owns a uniquely keyed entry. -/
theorem C9_ids_monotone (clock : Nat → Nat) (texts : List String) (s : AppState)
    (hmono : StrictMono clock) (hvalid : ∀ t ∈ texts, 2 ≤ t.length)
    (hstart : s.pendingSuggestions = []) :
    ((runSubmissions clock 0 texts s).pendingSuggestions.map Pending.id =
        (List.range texts.length).map clock)
  ∧ List.Pairwise (· < ·)
      ((runSubmissions clock 0 texts s).pendingSuggestions.map Pending.id)
  ∧ ((runSubmissions clock 0 texts s).pendingSuggestions.map Pending.id).Nodup := by
  have hids := runSubmissions_ids clock texts 0 s hvalid
  rw [hstart] at hids
  simp only [List.map_nil, List.nil_append] at hids
  rw [← List.range_eq_range' texts.length] at hids
  have hpw : List.Pairwise (· < ·) ((List.range texts.length).map clock) := by
    rw [List.pairwise_map]
    exact (List.pairwise_lt_range texts.length).imp (fun h => hmono h)
  refine ⟨hids, hids ▸ hpw, hids ▸ hpw.imp (fun h => Nat.ne_of_lt h)⟩

/-- Witness for C9 (amended) with the identity clock and two
submissions. -/
theorem C9_ids_monotone_w :
    ((runSubmissions (fun k => k) 0 ["milk", "eggs"] initState).pendingSuggestions.map
        Pending.id) = (List.range 2).map (fun k => k) :=
  (C9_ids_monotone (fun k => k) ["milk", "eggs"] initState
    (fun _ _ h => h) (by decide) rfl).1

/-! ## Timer discipline (C1) -/

/-- The phase, stored timer handle and scheduled timers of a state. -/
def timerFields (s : AppState) : Nat × Option Nat × List Nat :=
  (s.currentStep, s.pollInterval, s.activeTimers)

/-- The inductive single-timer invariant: either no timer is scheduled,
or the session is in the polling phase with exactly the stored timer
scheduled. -/
def TimerInv (s : AppState) : Prop :=
  s.activeTimers = [] ∨
    (s.currentStep = 3 ∧ ∃ t, s.pollInterval = some t ∧ s.activeTimers = [t])

lemma timerInv_of_fields {s s' : AppState}
    (h : timerFields s' = timerFields s) (hs : TimerInv s) : TimerInv s' := by
  unfold timerFields at h
  injection h with h1 h
  injection h with h2 h3
  unfold TimerInv at *
  rw [h1, h2, h3]
  exact hs

lemma addToCart_fields (nm : String) (s : AppState) :
    timerFields (addToCart nm s) = timerFields s := by
  unfold addToCart showToast timerFields
  split_ifs <;> rfl

lemma itemSubmitHandler_fields (now : Nat) (text : String) (s : AppState) :
    timerFields (itemSubmitHandler now text s) = timerFields s := by
  unfold itemSubmitHandler submitItemForAI timerFields
  dsimp only
  split_ifs <;> rfl

lemma selectSuggestion_fields (pid : Nat) (nm : String) (s : AppState) :
    timerFields (selectSuggestion pid nm s) = timerFields s := by
  unfold selectSuggestion
  rw [show timerFields { addToCart nm s with
        pendingSuggestions := removePendingItem pid (addToCart nm s).pendingSuggestions } =
      timerFields (addToCart nm s) from rfl]
  exact addToCart_fields nm s

/-- `pollResults` either leaves phase, stored handle and scheduled
timers unchanged (the continue-polling outcomes), or its scheduled
timers are those left by `clearInterval(state.pollInterval)` (the
terminal outcomes). -/
lemma pollResults_fields (s : AppState) (o : PollOutcome) :
    timerFields (pollResults s o) = timerFields s ∨
      (pollResults s o).activeTimers = clearTimers s := by
  unfold pollResults
  cases o with
  | netFail => right; rfl
  | response ok d =>
    dsimp only
    split_ifs <;> first | (left; rfl) | (right; rfl)

lemma stepR_timerInv {s s' : AppState} (h : StepR s s') (hs : TimerInv s) : TimerInv s' := by
  cases h with
  | goContinue h1 _ =>
    rcases hs with h | ⟨h3, _⟩
    · exact Or.inl (by simpa [goToStep] using h)
    · rw [h1] at h3; cases h3
  | goBack h1 =>
    rcases hs with h | ⟨h3, _⟩
    · exact Or.inl (by simpa [goToStep] using h)
    · rw [h1] at h3; cases h3
  | submit zip pn o h1 =>
    have hnil : s.activeTimers = [] := by
      rcases hs with h | ⟨h3, _⟩
      · exact h
      · rw [h1] at h3; cases h3
    cases o with
    | fail => exact Or.inl (by simpa [submitCart, goToStep, showToast] using hnil)
    | ok jobId =>
      right
      refine ⟨rfl, s.nextTimer, rfl, ?_⟩
      simp [submitCart, startPolling, goToStep, hnil]
  | tick t o hmem =>
    rcases hs with h | ⟨h3, t0, hp, ha⟩
    · rw [h] at hmem; cases hmem
    · rcases pollResults_fields s o with hsame | hclear
      · exact timerInv_of_fields hsame (Or.inr ⟨h3, t0, hp, ha⟩)
      · left
        rw [hclear]
        simp [clearTimers, hp, ha]
  | reset h1 =>
    have hnil : s.activeTimers = [] := by
      rcases hs with h | ⟨h3, _⟩
      · exact h
      · rw [h1] at h3; cases h3
    exact Or.inl (by simpa [newSearchReset, goToStep] using hnil)
  | addItem nm _ => exact timerInv_of_fields (addToCart_fields nm s) hs
  | removeItem i _ =>
    exact timerInv_of_fields (by unfold removeFromCart showToast timerFields; rfl) hs
  | clearEv _ =>
    exact timerInv_of_fields (by unfold clearCart timerFields; rfl) hs
  | submitText now text _ =>
    exact timerInv_of_fields (itemSubmitHandler_fields now text s) hs
  | resolve pid o _ =>
    exact timerInv_of_fields (by unfold submitItemResolve timerFields; rfl) hs
  | select pid nm _ => exact timerInv_of_fields (selectSuggestion_fields pid nm s) hs

lemma reach_timerInv {s : AppState} (h : Reach s) : TimerInv s := by
  induction h with
  | init => exact Or.inl rfl
  | step _ hstep ih => exact stepR_timerInv hstep ih

/-- C1 (amended): neither `startPolling` nor the new-search reset
cancels a previously scheduled timer (see `C1_counterexample`);
nevertheless, along every event sequence reachable through the UI at
most one poll timer is ever scheduled, because every terminal poll
outcome clears the timer before a phase in which submit or reset are
interactable is re-entered. -/
theorem C1_single_timer (s : AppState) (h : Reach s) : s.activeTimers.length ≤ 1 := by
  rcases reach_timerInv h with h1 | ⟨_, t, _, h2⟩
  · simp [h1]
  · simp [h2]

/-- Witness for C1: a reachable state with one scheduled timer — add
"milk", continue to the location phase, submit successfully. -/
theorem C1_single_timer_w :
    (submitCart "02139" false (.ok "abc123")
      (goToStep 2 (addToCart "milk" initState))).activeTimers.length ≤ 1 :=
  C1_single_timer _
    (Reach.step
      (Reach.step
        (Reach.step Reach.init (StepR.addItem initState "milk" rfl))
        (StepR.goContinue _ (by decide) (by decide)))
      (StepR.submit _ "02139" false (.ok "abc123") (by decide)))

/-- C1 (counterexample to the stated mechanism): in a state holding one
scheduled timer, the new-search reset leaves that timer scheduled (it
does not cancel it), and `startPolling` schedules a second timer
without cancelling the first — contradicting "reset cancels any active
timer unconditionally" and "starting a new poll cycle first cancels any
previously running timer". -/
theorem C1_no_cancel_counterexample :
    (newSearchReset { initState with currentStep := 4, activeTimers := [0], pollInterval := some 0, nextTimer := 1 }).activeTimers = [0]
  ∧ (startPolling { initState with currentStep := 2, activeTimers := [0], pollInterval := some 0, nextTimer := 1 }).activeTimers.length = 2 := by
  refine ⟨by decide, by decide⟩

/-! ## Best-price grouping (C6) -/

lemma sortByPrice_cons (x : Product) (l : List Product) :
    sortByPrice (x :: l) = insertByPrice x (sortByPrice l) := rfl

lemma mem_insertByPrice {x y : Product} :
    ∀ {l : List Product}, y ∈ insertByPrice x l ↔ y = x ∨ y ∈ l := by
  intro l
  induction l with
  | nil => simp [insertByPrice]
  | cons z zs ih =>
    unfold insertByPrice
    split_ifs
    · simp [List.mem_cons]
    · simp only [List.mem_cons, ih]
      tauto

lemma mem_sortByPrice {y : Product} :
    ∀ {l : List Product}, y ∈ sortByPrice l ↔ y ∈ l := by
  intro l
  induction l with
  | nil => simp [sortByPrice]
  | cons x xs ih =>
    rw [sortByPrice_cons, mem_insertByPrice]
    simp [List.mem_cons, ih]

lemma sorted_insertByPrice {x : Product} :
    ∀ {l : List Product}, l.Pairwise (fun a b => a.price ≤ b.price) →
      (insertByPrice x l).Pairwise (fun a b => a.price ≤ b.price) := by
  intro l
  induction l with
  | nil => intro _; simp [insertByPrice]
  | cons y ys ih =>
    intro h
    rw [List.pairwise_cons] at h
    obtain ⟨hy, hys⟩ := h
    unfold insertByPrice
    split_ifs with hxy
    · refine List.Pairwise.cons ?_ (List.Pairwise.cons hy hys)
      intro z hz
      rcases List.mem_cons.mp hz with rfl | hz
      · exact hxy
      · exact le_trans hxy (hy z hz)
    · refine List.Pairwise.cons ?_ (ih hys)
      intro z hz
      rcases mem_insertByPrice.mp hz with rfl | hz
      · exact le_of_not_le hxy
      · exact hy z hz

lemma sorted_sortByPrice (l : List Product) :
    (sortByPrice l).Pairwise (fun a b => a.price ≤ b.price) := by
  induction l with
  | nil => simp [sortByPrice]
  | cons x xs ih => rw [sortByPrice_cons]; exact sorted_insertByPrice ih

lemma sortByPrice_ne_nil {l : List Product} (h : l ≠ []) : sortByPrice l ≠ [] := by
  obtain ⟨x, hx⟩ := List.exists_mem_of_ne_nil l h
  intro hnil
  have hx' := mem_sortByPrice.mpr hx
  rw [hnil] at hx'
  cases hx'

lemma bestPriceOf_le {l : List Product} {p : Product} (hp : p ∈ l) :
    bestPriceOf l ≤ p.price := by
  have hp' : p ∈ sortByPrice l := mem_sortByPrice.mpr hp
  unfold bestPriceOf
  rcases hsl : sortByPrice l with _ | ⟨b, bs⟩
  · rw [hsl] at hp'; cases hp'
  · rw [hsl] at hp'
    have hsorted := sorted_sortByPrice l
    rw [hsl, List.pairwise_cons] at hsorted
    rcases List.mem_cons.mp hp' with rfl | hp'
    · exact le_refl _
    · exact hsorted.1 p hp'

lemma filter_insertByPrice_not {x : Product} {m : ℚ} (hx : ¬ x.price = m) :
    ∀ l : List Product,
      (insertByPrice x l).filter (fun p => p.price == m) =
        l.filter (fun p => p.price == m) := by
  intro l
  induction l with
  | nil => simp [insertByPrice, hx]
  | cons y ys ih =>
    unfold insertByPrice
    split_ifs
    · simp [List.filter_cons, hx]
    · simp only [List.filter_cons, ih]

lemma filter_insertByPrice_min {x : Product} {m : ℚ} (hx : x.price = m)
    {l : List Product} (hl : ∀ p ∈ l, m ≤ p.price) :
    (insertByPrice x l).filter (fun p => p.price == m) =
      x :: l.filter (fun p => p.price == m) := by
  cases l with
  | nil => simp [insertByPrice, hx]
  | cons y ys =>
    have hle : x.price ≤ y.price := by rw [hx]; exact hl y (by simp)
    unfold insertByPrice
    rw [if_pos hle]
    simp [List.filter_cons, hx]

lemma filter_sortByPrice_min {m : ℚ} :
    ∀ {l : List Product}, (∀ p ∈ l, m ≤ p.price) →
      (sortByPrice l).filter (fun p => p.price == m) =
        l.filter (fun p => p.price == m) := by
  intro l
  induction l with
  | nil => intro _; rfl
  | cons x xs ih =>
    intro h
    rw [sortByPrice_cons]
    have hxs : ∀ p ∈ xs, m ≤ p.price := fun p hp => h p (by simp [hp])
    have hsort : ∀ p ∈ sortByPrice xs, m ≤ p.price :=
      fun p hp => hxs p (mem_sortByPrice.mp hp)
    by_cases hx : x.price = m
    · rw [filter_insertByPrice_min hx hsort, ih hxs]
      simp [List.filter_cons, hx]
    · rw [filter_insertByPrice_not hx, ih hxs]
      simp [List.filter_cons, hx]

/-- Stability: the best-price group of the sorted list is the filter of
the ORIGINAL list at the minimum price, i.e. ties keep the
server-returned order. -/
lemma bestGroupOf_stable (l : List Product) :
    bestGroupOf l = l.filter (fun p => p.price == bestPriceOf l) :=
  filter_sortByPrice_min (fun _ hp => bestPriceOf_le hp)

lemma bestGroupOf_cons {l : List Product} {b : Product} {bs : List Product}
    (hsl : sortByPrice l = b :: bs) :
    bestGroupOf l = b :: bs.filter (fun p => p.price == b.price) := by
  unfold bestGroupOf bestPriceOf
  rw [hsl]
  simp [List.filter_cons]

lemma renderItem_eq_group {nm : String} {l : List Product} (hne : l ≠ [])
    {g g2 : Product} {gs : List Product} (hbg : bestGroupOf l = g :: g2 :: gs) :
    renderItem nm l = .group nm g (g2 :: gs) (g2 :: gs).length := by
  cases l with
  | nil => exact absurd rfl hne
  | cons x xs =>
    unfold renderItem
    rw [hbg]
    simp

lemma renderItem_eq_single {nm : String} {l : List Product} (hne : l ≠ [])
    {g : Product} (hbg : bestGroupOf l = [g]) :
    renderItem nm l = .single nm g := by
  cases l with
  | nil => exact absurd rfl hne
  | cons x xs =>
    unfold renderItem
    rw [hbg]
    simp

lemma renderItem_noResults_iff (nm : String) (l : List Product) :
    renderItem nm l = .noResults nm ↔ l = [] := by
  constructor
  · intro h
    by_contra hne
    obtain ⟨b, bs, hsl⟩ : ∃ b bs, sortByPrice l = b :: bs := by
      rcases hsl : sortByPrice l with _ | ⟨b, bs⟩
      · exact absurd hsl (sortByPrice_ne_nil hne)
      · exact ⟨b, bs, rfl⟩
    have hbg := bestGroupOf_cons hsl
    cases l with
    | nil => exact hne rfl
    | cons x xs =>
      unfold renderItem at h
      rw [hbg] at h
      dsimp only at h
      split_ifs at h
  · intro h; rw [h]; rfl

/-- The three products of the worked example of the specification:
merchants A and B at 3.50, merchant C at 4.00. -/
def prodA : Product := { name := "", merchant := "A", price := mkRat 7 2, location := none }

def prodB : Product := { name := "", merchant := "B", price := mkRat 7 2, location := none }

def prodC : Product := { name := "", merchant := "C", price := 4, location := none }

/-- C6: for every nonempty product list, the displayed list is sorted
ascending by price; the best-price group is exactly the original-order
filter of the products at the minimum price (ties keep server order);
any product priced above the minimum is strictly dearer and excluded
from the group; a singleton group renders as a single expanded row and
a larger group renders its first product expanded with the remaining
tied products collapsed behind a toggle counting the group size minus
one.  On the worked example milk = [A at 3.50, B at 3.50, C at 4.00]
the group is [A, B], the card shows A expanded with 1 other store, and
C is excluded. -/
theorem C6_best_price_grouping :
    (∀ (nm : String) (l : List Product), l ≠ [] →
      (sortByPrice l).Pairwise (fun a b => a.price ≤ b.price) ∧
      (∀ p ∈ l, bestPriceOf l ≤ p.price) ∧
      bestGroupOf l = l.filter (fun p => p.price == bestPriceOf l) ∧
      (∀ p ∈ l, p.price ≠ bestPriceOf l →
        p ∉ bestGroupOf l ∧ bestPriceOf l < p.price) ∧
      (∀ g : Product, bestGroupOf l = [g] → renderItem nm l = .single nm g) ∧
      (∀ (g g2 : Product) (gs : List Product), bestGroupOf l = g :: g2 :: gs →
        renderItem nm l = .group nm g (g2 :: gs) (g2 :: gs).length))
  ∧ renderItem "milk" [prodA, prodB, prodC] = .group "milk" prodA [prodB] 1
  ∧ bestGroupOf [prodA, prodB, prodC] = [prodA, prodB] := by
  refine ⟨?_, by decide, by decide⟩
  intro nm l hne
  refine ⟨sorted_sortByPrice l, fun p hp => bestPriceOf_le hp, bestGroupOf_stable l,
    ?_, fun g hbg => renderItem_eq_single hne hbg,
    fun g g2 gs hbg => renderItem_eq_group hne hbg⟩
  intro p hp hpne
  constructor
  · intro hmem
    rw [bestGroupOf_stable] at hmem
    exact hpne (by simpa using (List.mem_filter.mp hmem).2)
  · exact lt_of_le_of_ne (bestPriceOf_le hp) (Ne.symm hpne)

/-- Witness for C6 at the worked example list. -/
theorem C6_best_price_grouping_w :
    ([prodA, prodB, prodC] ≠ ([] : List Product)) ∧
      (sortByPrice [prodA, prodB, prodC]).Pairwise (fun a b => a.price ≤ b.price) :=
  ⟨by decide, (C6_best_price_grouping.1 "milk" [prodA, prodB, prodC] (by decide)).1⟩

/-! ## Results view per cart item (C7) -/

lemma lookupD_eq_nil {rs : List (String × List Product)} {k : String}
    (h : k ∉ objKeys rs) : lookupD rs k = [] := by
  unfold lookupD
  cases hf : rs.find? (fun kv => kv.1 == k) with
  | none => rfl
  | some kv =>
    have hpk := List.find?_some hf
    have hmem : kv ∈ rs := List.mem_of_find?_eq_some hf
    exact absurd (List.mem_map.mpr ⟨kv, hmem, by simpa using hpk⟩) h

lemma itemsFound_eq_cart_count (cart : List CartItem) (rs : List (String × List Product))
    (hnd : (objKeys rs).Nodup)
    (hsub : ∀ k ∈ objKeys rs, k ∈ cart.map CartItem.name)
    (hcart : (cart.map CartItem.name).Nodup) :
    itemsFound rs = (cart.filter (fun c => !(lookupD rs c.name).isEmpty)).length := by
  have h1 : ((cart.map CartItem.name).filter (fun k => !(lookupD rs k).isEmpty)).length =
      (cart.filter (fun c => !(lookupD rs c.name).isEmpty)).length := by
    rw [List.filter_map, List.length_map]
    rfl
  unfold itemsFound
  rw [← h1]
  apply List.Perm.length_eq
  apply (List.perm_ext_iff_of_nodup (hnd.filter _) (hcart.filter _)).mpr
  intro k
  simp only [List.mem_filter]
  constructor
  · rintro ⟨hk, hp⟩
    exact ⟨hsub k hk, hp⟩
  · rintro ⟨hk, hp⟩
    refine ⟨?_, hp⟩
    by_contra hnk
    rw [lookupD_eq_nil hnk] at hp
    simp at hp

/-- The populated product of the no-results worked example. -/
def prodM : Product := { name := "Whole Milk", merchant := "A", price := 3, location := none }

/-- C7: the results view renders exactly one card per cart item in cart
order, each fed by exact-name lookup in the results mapping with the
empty list (never an error) when the name is absent; the card is the
no-products placeholder exactly when the looked-up list is empty; and
— with the results keyed by (necessarily distinct) submitted cart item
names, as the backend contract provides — the items-found count equals
the number of cart items whose looked-up list is nonempty.  On the
worked example, cart [milk, eggs] with results only for milk shows one
populated card, one placeholder, and an items-found count of 1 out of 2
cart items. -/
theorem C7_results_cards :
    (∀ (cart : List CartItem) (rs : List (String × List Product)),
      (renderResults cart rs).length = cart.length ∧
      (∀ (i : Nat) (c : CartItem), cart[i]? = some c →
        (renderResults cart rs)[i]? = some (renderItem c.name (lookupD rs c.name))) ∧
      (∀ k : String, k ∉ objKeys rs → lookupD rs k = []) ∧
      (∀ (i : Nat) (c : CartItem), cart[i]? = some c →
        ((renderResults cart rs)[i]? = some (.noResults c.name) ↔
          lookupD rs c.name = [])) ∧
      ((objKeys rs).Nodup → (∀ k ∈ objKeys rs, k ∈ cart.map CartItem.name) →
        (cart.map CartItem.name).Nodup →
        itemsFound rs = (cart.filter (fun c => !(lookupD rs c.name).isEmpty)).length))
  ∧ renderResults [{ name := "milk" }, { name := "eggs" }] [("milk", [prodM])] =
      [.single "milk" prodM, .noResults "eggs"]
  ∧ itemsFound [("milk", [prodM])] = 1
  ∧ ([{ name := "milk" }, { name := "eggs" }] : List CartItem).length = 2 := by
  refine ⟨?_, by decide, by decide, by decide⟩
  intro cart rs
  have hcard : ∀ (i : Nat) (c : CartItem), cart[i]? = some c →
      (renderResults cart rs)[i]? = some (renderItem c.name (lookupD rs c.name)) := by
    intro i c h
    unfold renderResults
    rw [List.getElem?_map, h]
    rfl
  refine ⟨by unfold renderResults; rw [List.length_map], hcard,
    fun k hk => lookupD_eq_nil hk, ?_,
    fun h1 h2 h3 => itemsFound_eq_cart_count cart rs h1 h2 h3⟩
  intro i c h
  rw [hcard i c h]
  simp [renderItem_noResults_iff]

/-- Witness for C7: the items-found count of the worked example equals
the number of cart items with nonempty lookup. -/
theorem C7_results_cards_w :
    itemsFound [("milk", [prodM])] =
      (([{ name := "milk" }, { name := "eggs" }] : List CartItem).filter
        (fun c => !(lookupD [("milk", [prodM])] c.name).isEmpty)).length :=
  (C7_results_cards.1 [{ name := "milk" }, { name := "eggs" }]
      [("milk", [prodM])]).2.2.2.2 (by decide) (by decide) (by decide)

/-! ## Progress indicator (C5) -/

lemma pollResults_pollCount (s : AppState) (o : PollOutcome) :
    (pollResults s o).pollCount = s.pollCount + 1 := by
  unfold pollResults
  cases o <;> dsimp only <;> try rfl
  split_ifs <;> rfl

/-- The progress value left behind by one tick: 100 exactly on a
confirmed completion, the synthetic `min(count*10, 90)` otherwise. -/
lemma pollResults_progress (s : AppState) (o : PollOutcome) :
    (pollResults s o).progress =
      if isCompleteOutcome o then 100 else min ((s.pollCount + 1) * 10) 90 := by
  unfold pollResults
  cases o with
  | netFail => rfl
  | response ok d =>
    cases ok with
    | false => rfl
    | true =>
      dsimp only
      rw [if_neg (by decide : ¬ (true = false))]
      by_cases hc : d.status = "complete"
      · have hco : isCompleteOutcome (PollOutcome.response true d) = true := by
          simp [isCompleteOutcome, hc]
        rw [if_pos hc, hco, if_pos rfl]
        rfl
      · have hco : isCompleteOutcome (PollOutcome.response true d) = false := by
          simp [isCompleteOutcome, hc]
        rw [if_neg hc, hco, if_neg Bool.false_ne_true]
        split_ifs <;> rfl

lemma pollResults_nonterminal {s : AppState} {o : PollOutcome}
    (h : isTerminalOutcome o = false) :
    (pollResults s o).pollCount = s.pollCount + 1 ∧
    (pollResults s o).progress = min ((s.pollCount + 1) * 10) 90 ∧
    (pollResults s o).activeTimers = s.activeTimers ∧
    (pollResults s o).pollInterval = s.pollInterval := by
  cases o with
  | netFail => simp [isTerminalOutcome] at h
  | response ok d =>
    cases ok with
    | false => simp [isTerminalOutcome] at h
    | true =>
      simp only [isTerminalOutcome, Bool.or_eq_false_iff, beq_eq_false_iff_ne] at h
      unfold pollResults
      dsimp only
      rw [if_neg (by decide : ¬ (true = false)), if_neg h.1]
      split_ifs with h1 h2 h3
      · exact ⟨rfl, rfl, rfl, rfl⟩
      · exact absurd h2 h.2
      · exact ⟨rfl, rfl, rfl, rfl⟩
      · exact ⟨rfl, rfl, rfl, rfl⟩

lemma pollResults_terminal_timers {s : AppState} {o : PollOutcome}
    (h : isTerminalOutcome o = true) :
    (pollResults s o).activeTimers = clearTimers s := by
  cases o with
  | netFail => rfl
  | response ok d =>
    cases ok with
    | false => rfl
    | true =>
      simp only [isTerminalOutcome, Bool.or_eq_true, beq_iff_eq] at h
      unfold pollResults
      dsimp only
      rw [if_neg (by decide : ¬ (true = false))]
      rcases h with h | h
      · rw [if_pos h]; rfl
      · have hc : ¬ d.status = "complete" := by rw [h]; decide
        have hpr : ¬ d.status = "processing" := by rw [h]; decide
        rw [if_neg hc, if_neg hpr, if_pos h]; rfl

lemma pollTrace_length_le : ∀ (os : List PollOutcome) (s : AppState),
    (pollTraceFrom s os).length ≤ os.length := by
  intro os
  induction os with
  | nil => intro s; simp [pollTraceFrom]
  | cons o os' ih =>
    intro s
    rw [pollTraceFrom]
    split_ifs
    · simp
    · simpa using ih (pollResults s o)

lemma pollTrace_getElem {t : Nat} :
    ∀ (os : List PollOutcome) (s : AppState), s.pollInterval = some t →
      s.activeTimers = [t] →
      ∀ (k : Nat) (o : PollOutcome), os[k]? = some o →
        k < (pollTraceFrom s os).length →
        (pollTraceFrom s os)[k]? =
          some (if isCompleteOutcome o then 100 else min ((s.pollCount + k + 1) * 10) 90) := by
  intro os
  induction os with
  | nil => intro s _ _ k o hk _; simp at hk
  | cons o' os' ih =>
    intro s hp ha k o hk hlen
    cases k with
    | zero =>
      have ho : o' = o := by simpa using hk
      subst ho
      rw [pollTraceFrom]
      rw [List.getElem?_cons_zero, pollResults_progress]
    | succ k' =>
      rw [pollTraceFrom] at hlen ⊢
      rw [List.getElem?_cons_succ]
      by_cases hterm : isTerminalOutcome o' = true
      · exfalso
        have hcl := pollResults_terminal_timers (s := s) hterm
        rw [clearTimers, hp, ha] at hcl
        simp at hcl
        rw [if_pos (by simp [hcl])] at hlen
        simp at hlen
      · obtain ⟨hcount, _, htimers, hint⟩ :=
          pollResults_nonterminal (s := s) (by simpa using hterm)
        rw [if_neg (by simp [htimers, ha])] at hlen ⊢
        have hk' : os'[k']? = some o := by simpa using hk
        have hlen' : k' < (pollTraceFrom (pollResults s o') os').length := by
          simp only [List.length_cons] at hlen
          omega
        have := ih (pollResults s o') (by rw [hint, hp]) (by rw [htimers, ha])
          k' o hk' hlen'
        rw [this, hcount]
        congr 2
        omega

lemma pollTrace_chain {t : Nat} :
    ∀ (os : List PollOutcome) (s : AppState), s.pollInterval = some t →
      s.activeTimers = [t] →
      List.Chain' (fun a b => a ≤ b) (pollTraceFrom s os) := by
  intro os
  induction os with
  | nil => intro s _ _; simp [pollTraceFrom]
  | cons o os' ih =>
    intro s hp ha
    rw [pollTraceFrom]
    by_cases hterm : isTerminalOutcome o = true
    · have hcl := pollResults_terminal_timers (s := s) hterm
      rw [clearTimers, hp, ha] at hcl
      simp at hcl
      rw [if_pos (by simp [hcl])]
      simp
    · obtain ⟨hcount, hprog, htimers, hint⟩ :=
        pollResults_nonterminal (s := s) (by simpa using hterm)
      rw [if_neg (by simp [htimers, ha])]
      refine List.chain'_cons'.mpr
        ⟨?_, ih (pollResults s o) (by rw [hint, hp]) (by rw [htimers, ha])⟩
      intro y hy
      cases os' with
      | nil => simp [pollTraceFrom] at hy
      | cons o2 os2 =>
        rw [pollTraceFrom] at hy
        have hy' : y = (pollResults (pollResults s o) o2).progress :=
          (by simpa using hy : _ = y).symm
        rw [hy', hprog, pollResults_progress, hcount]
        split_ifs
        · have : min ((s.pollCount + 1) * 10) 90 ≤ 90 := min_le_right _ _
          omega
        · exact min_le_min (by omega) le_rfl

/-- C5: within one job's polling lifetime (pollCount is reset to 0 by
`startPolling`), the progress indicator trace is monotonically
non-decreasing; the value left by the k-th tick (0-indexed) is exactly
`min((k+1)*10, 90)` unless that tick's response is a confirmed
`complete`, in which case it is exactly 100; and the indicator reaches
100 only when some outcome of the run is a confirmed `complete`. -/
theorem C5_progress_indicator (s : AppState) (os : List PollOutcome)
    (h0 : s.activeTimers = []) :
    List.Chain' (fun a b => a ≤ b) (pollTraceFrom (startPolling s) os)
  ∧ (∀ (k : Nat) (o : PollOutcome), os[k]? = some o →
      k < (pollTraceFrom (startPolling s) os).length →
      (pollTraceFrom (startPolling s) os)[k]? =
        some (if isCompleteOutcome o then 100 else min ((k + 1) * 10) 90))
  ∧ (∀ v ∈ pollTraceFrom (startPolling s) os, v = 100 →
      ∃ o ∈ os, isCompleteOutcome o = true) := by
  have hp : (startPolling s).pollInterval = some s.nextTimer := rfl
  have ha : (startPolling s).activeTimers = [s.nextTimer] := by
    simp [startPolling, h0]
  have hcount : (startPolling s).pollCount = 0 := rfl
  have hget : ∀ (k : Nat) (o : PollOutcome), os[k]? = some o →
      k < (pollTraceFrom (startPolling s) os).length →
      (pollTraceFrom (startPolling s) os)[k]? =
        some (if isCompleteOutcome o then 100 else min ((k + 1) * 10) 90) := by
    intro k o hk hlen
    have h := pollTrace_getElem os (startPolling s) hp ha k o hk hlen
    rw [hcount] at h
    simpa using h
  refine ⟨pollTrace_chain os _ hp ha, hget, ?_⟩
  intro v hv h100
  obtain ⟨k, hlen, hkv⟩ := List.getElem_of_mem hv
  have hklt : k < os.length := lt_of_lt_of_le hlen (pollTrace_length_le os _)
  obtain ⟨o, hko⟩ : ∃ o, os[k]? = some o := ⟨os[k], by simp [hklt]⟩
  have := hget k o hko hlen
  rw [List.getElem?_eq_getElem hlen, hkv, h100] at this
  have hmem : o ∈ os := by
    rw [List.getElem?_eq_getElem hklt] at hko
    have ho : os[k] = o := by injection hko
    rw [← ho]
    exact List.getElem_mem hklt
  refine ⟨o, hmem, ?_⟩
  by_contra hno
  rw [if_neg (by simpa using hno)] at this
  have hle : min ((k + 1) * 10) 90 ≤ 90 := min_le_right _ _
  have : (100 : Nat) = min ((k + 1) * 10) 90 := by injection this
  omega

/-- Witness for C5 on the worked run queued → processing → complete:
the trace is 10, 20, 100. -/
theorem C5_progress_indicator_w :
    List.Chain' (fun a b => a ≤ b)
      (pollTraceFrom (startPolling initState)
        [.response true { status := "queued", queue_position := some 3, results := [], zip_code := none, total_time := none },
         .response true { status := "processing", queue_position := none, results := [], zip_code := none, total_time := none },
         .response true { status := "complete", queue_position := none, results := [], zip_code := none, total_time := none }]) :=
  (C5_progress_indicator initState _ rfl).1

end App





